import Mathlib

/-!
Shallow embedding of the MAALA agents (src/agents/audio_agent/core.py and
src/agents/ocr_agent/core.py).

The `AudioAgent` keeps two kinds of per-session state:
  * an on-disk directory `persistence_base_dir/<session_id>` that may hold a
    `metadata.json` file (a JSON object with a `"files"` list) and the Chroma
    vector-store files;
  * an in-memory dictionary `chat_history_store` mapping session ids to chat
    message histories.

We model the directory of a session as `SessionDir`: `metadata` is the
`"files"` list of `metadata.json` when that file exists, and `vectorFiles`
counts the vector-store files Chroma persisted into the directory (their
content is opaque to the agent's control flow; only existence matters, via
`os.listdir`).  The whole mutable state is `AgentState`.

External effects (the Groq transcription call, the text splitter, the LLM
retrieval chain) are passed in as parameters: an `Option`/`Except` value
models a call that may raise, and the splitter is an abstract function,
exactly as the agent treats these libraries as black boxes.
-/

namespace MAALA

/-- On-disk contents of one session's directory under
`persistence_base_dir`: `metadata = some files` when `metadata.json` exists
and its `"files"` key holds `files`; `vectorFiles` is the number of
vector-store files Chroma has persisted there. -/
structure SessionDir where
  metadata : Option (List String)
  vectorFiles : Nat
deriving DecidableEq, Repr

/-- The mutable state of one `AudioAgent` instance: the on-disk session
directories (`none` = directory does not exist) and the in-memory
`chat_history_store` (`none` = key absent). -/
structure AgentState where
  dirs : String → Option SessionDir
  chatHistory : String → Option (List String)

/-- The state of a freshly constructed agent over an empty base directory. -/
def initState : AgentState :=
  AgentState.mk (fun _ => none) (fun _ => none)

/-- Replace session `sid`'s on-disk directory. -/
def updateDir (st : AgentState) (sid : String) (v : Option SessionDir) : AgentState :=
  AgentState.mk (fun s => if s = sid then v else st.dirs s) st.chatHistory

/-- Replace session `sid`'s in-memory chat history entry. -/
def updateHistory (st : AgentState) (sid : String) (v : Option (List String)) : AgentState :=
  AgentState.mk st.dirs (fun s => if s = sid then v else st.chatHistory s)

/-- `AudioAgent.get_uploaded_files`: if `metadata.json` exists, return its
`"files"` list (defaulting to `[]` when the key is missing), else `[]`.
The metadata file can only exist inside an existing session directory. -/
def get_uploaded_files (st : AgentState) (sid : String) : List String :=
  match st.dirs sid with
  | some d => d.metadata.getD []
  | none => []

/-- `AudioAgent._add_file_to_metadata`: `os.makedirs(..., exist_ok=True)`
ensures the directory exists, the current `"files"` list is read (empty when
`metadata.json` is absent), and the filename is appended and written back
only when not already present.  Returns the resulting list length. -/
def add_file_to_metadata (st : AgentState) (sid fn : String) : AgentState × Nat :=
  let d := (st.dirs sid).getD (SessionDir.mk none 0)
  let files := d.metadata.getD []
  if fn ∈ files then
    (updateDir st sid (some d), files.length)
  else
    (updateDir st sid (some (SessionDir.mk (some (files ++ [fn])) d.vectorFiles)),
     (files ++ [fn]).length)

/-- `AudioAgent.process_audio`.  The duplicate check runs first, then the
cap check (`len(current_files) >= 5`).  `transcript` models the Groq
transcription call: `none` when the call raises (the `except` branch prints
and returns `0`), `some text` for its `.text` result.  `split` models
`RecursiveCharacterTextSplitter.split_documents` (chunk count only depends
on the transcript text).  On the success path `Chroma.from_documents`
persists the chunks into the session directory (creating it if needed) and
then `_add_file_to_metadata` records the filename. -/
def process_audio (st : AgentState) (sid fn : String)
    (transcript : Option String) (split : String → List String) :
    AgentState × Int :=
  let current_files := get_uploaded_files st sid
  if fn ∈ current_files then
    (st, -2)
  else if 5 ≤ current_files.length then
    (st, -1)
  else
    match transcript with
    | none => (st, 0)
    | some text =>
      if text = "" then
        (st, 0)
      else
        let splits := split text
        if splits.isEmpty then
          (st, 0)
        else
          let d := (st.dirs sid).getD (SessionDir.mk none 0)
          let st1 := updateDir st sid
            (some (SessionDir.mk d.metadata (d.vectorFiles + splits.length)))
          ((add_file_to_metadata st1 sid fn).1, (splits.length : Int))

/-- `AudioAgent.clear_context`: if the session directory exists,
`shutil.rmtree` is attempted; a failure (`rmtreeFails = true`) is printed
and swallowed, leaving the directory in place.  In either case the
`chat_history_store` entry for the session is deleted when present. -/
def clear_context (st : AgentState) (sid : String) (rmtreeFails : Bool) : AgentState :=
  let st1 :=
    if (st.dirs sid).isSome then
      if rmtreeFails then st else updateDir st sid none
    else st
  updateHistory st1 sid none

/-- `AudioAgent.get_session_history`: create an empty history entry for the
session when absent, then return the entry. -/
def get_session_history (st : AgentState) (sid : String) :
    AgentState × List String :=
  match st.chatHistory sid with
  | some h => (st, h)
  | none => (updateHistory st sid (some []), [])

/-- The fixed advisory string of `AudioAgent.get_response`. -/
def advisoryMsg : String := "Please upload an audio file first."

/-- The guard of `AudioAgent.get_response`:
`os.path.exists(persist_dir) and os.listdir(persist_dir)` — the session
directory exists and lists at least one entry (`metadata.json` or a
vector-store file). -/
def dirListingNonempty : Option SessionDir → Bool
  | none => false
  | some d => d.metadata.isSome || decide (0 < d.vectorFiles)

/-- `AudioAgent.get_response`.  When the guard fails the advisory string is
returned at once, before any pipeline construction.  Otherwise the
retrieval chain is built and invoked: `RunnableWithMessageHistory` first
resolves `get_session_history` (creating the entry when absent), then runs
the chain, modelled by `pipeline` — `Except.error e` when the chain raises
(`get_response` has no handler, so the exception propagates), `Except.ok
ans` for the answer, in which case the user input and the answer are
appended to the session's history. -/
def get_response (st : AgentState) (sid userInput : String)
    (pipeline : Except String String) :
    AgentState × Except String String :=
  if dirListingNonempty (st.dirs sid) = false then
    (st, Except.ok advisoryMsg)
  else
    let p := get_session_history st sid
    match pipeline with
    | Except.error e => (p.1, Except.error e)
    | Except.ok ans =>
        (updateHistory p.1 sid (some (p.2 ++ [userInput, ans])), Except.ok ans)

/-- `OCRAgent.extract_text` (src/agents/ocr_agent/core.py).  `readImage`
models opening and base64-encoding the image file, `invokeLLM` the vision
model call on the encoded image; either may raise.  The whole body sits
inside a `try`, so any exception is converted to the error string; success
returns the stripped response content. -/
def extract_text (readImage : Except String String)
    (invokeLLM : String → Except String String) : String :=
  match readImage with
  | Except.error e => "Error extracting text: " ++ e
  | Except.ok imgB64 =>
    match invokeLLM imgB64 with
    | Except.error e => "Error extracting text: " ++ e
    | Except.ok content => content.trim

/-- One externally triggered operation on the audio agent, with its
external inputs. -/
inductive AgentOp where
  | upload (sid fn : String) (transcript : Option String) (split : String → List String)
  | ask (sid userInput : String) (pipeline : Except String String)
  | clear (sid : String) (rmtreeFails : Bool)

/-- Apply one operation to the state, discarding the returned value. -/
def applyOp (st : AgentState) : AgentOp → AgentState
  | AgentOp.upload sid fn t sp => (process_audio st sid fn t sp).1
  | AgentOp.ask sid q p => (get_response st sid q p).1
  | AgentOp.clear sid b => clear_context st sid b

/-- Run a sequence of operations from a state. -/
def runOps (st : AgentState) (ops : List AgentOp) : AgentState :=
  ops.foldl applyOp st

/-- A session directory whose file list is at the cap of 5, with `"a"`
among the recorded filenames. -/
def exDirFull : SessionDir := SessionDir.mk (some ["a", "b", "c", "d", "e"]) 1

/-- A state whose session `"s"` is at the upload cap. -/
def exStFull : AgentState :=
  AgentState.mk (fun s => if s = "s" then some exDirFull else none) (fun _ => none)

/-- A state whose session `"s"` holds one ingested file. -/
def exStOne : AgentState :=
  AgentState.mk (fun s => if s = "s" then some (SessionDir.mk (some ["a"]) 1) else none)
    (fun _ => none)

/-- A concrete stand-in for the text splitter: one chunk per transcript. -/
def exSplit : String → List String := fun t => [t]

/-! ## Basic lemmas about the state operations -/

lemma updateDir_dirs_self (st : AgentState) (sid : String) (v : Option SessionDir) :
    (updateDir st sid v).dirs sid = v := by
  simp [updateDir]

lemma updateDir_dirs_ne (st : AgentState) (sid s : String) (v : Option SessionDir)
    (h : s ≠ sid) : (updateDir st sid v).dirs s = st.dirs s := by
  simp [updateDir, h]

lemma updateDir_chatHistory (st : AgentState) (sid : String) (v : Option SessionDir) :
    (updateDir st sid v).chatHistory = st.chatHistory := rfl

lemma updateHistory_dirs (st : AgentState) (sid : String) (v : Option (List String)) :
    (updateHistory st sid v).dirs = st.dirs := rfl

lemma updateHistory_chatHistory_ne (st : AgentState) (sid s : String)
    (v : Option (List String)) (h : s ≠ sid) :
    (updateHistory st sid v).chatHistory s = st.chatHistory s := by
  simp [updateHistory, h]

lemma get_uploaded_files_congr (st st' : AgentState) (s : String)
    (h : st'.dirs s = st.dirs s) :
    get_uploaded_files st' s = get_uploaded_files st s := by
  unfold get_uploaded_files
  rw [h]

lemma getD_dirs_metadata (st : AgentState) (sid : String) :
    ((st.dirs sid).getD (SessionDir.mk none 0)).metadata.getD []
      = get_uploaded_files st sid := by
  unfold get_uploaded_files
  cases st.dirs sid <;> rfl

lemma get_uploaded_files_updateDir_some (st : AgentState) (sid : String)
    (d : SessionDir) :
    get_uploaded_files (updateDir st sid (some d)) sid = d.metadata.getD [] := by
  unfold get_uploaded_files
  rw [updateDir_dirs_self]

lemma add_file_to_metadata_fst_dirs_ne (st : AgentState) (sid fn s : String)
    (h : s ≠ sid) :
    (add_file_to_metadata st sid fn).1.dirs s = st.dirs s := by
  unfold add_file_to_metadata
  dsimp only
  split_ifs <;> exact updateDir_dirs_ne st sid s _ h

lemma add_file_to_metadata_chatHistory (st : AgentState) (sid fn : String) :
    (add_file_to_metadata st sid fn).1.chatHistory = st.chatHistory := by
  unfold add_file_to_metadata
  dsimp only
  split_ifs <;> rfl

lemma add_file_to_metadata_files (st : AgentState) (sid fn : String) :
    get_uploaded_files (add_file_to_metadata st sid fn).1 sid
      = if fn ∈ get_uploaded_files st sid then get_uploaded_files st sid
        else get_uploaded_files st sid ++ [fn] := by
  unfold add_file_to_metadata
  rw [← getD_dirs_metadata st sid]
  dsimp only
  split_ifs with h
  · rw [get_uploaded_files_updateDir_some]
  · rw [get_uploaded_files_updateDir_some]
    rfl

lemma get_uploaded_files_update_vector (st : AgentState) (sid : String) (n : Nat) :
    get_uploaded_files
      (updateDir st sid (some (SessionDir.mk
        ((st.dirs sid).getD (SessionDir.mk none 0)).metadata n))) sid
      = get_uploaded_files st sid := by
  unfold get_uploaded_files
  rw [updateDir_dirs_self]
  exact getD_dirs_metadata st sid

lemma clear_context_dirs_self (st : AgentState) (sid : String) :
    (clear_context st sid false).dirs sid = none := by
  unfold clear_context
  cases hx : st.dirs sid <;>
    simp [hx, updateHistory_dirs, updateDir_dirs_self]

lemma clear_context_dirs_cases (st : AgentState) (sid s : String) (b : Bool) :
    (clear_context st sid b).dirs s = st.dirs s
    ∨ (clear_context st sid b).dirs s = none := by
  unfold clear_context
  by_cases hs : s = sid
  · subst hs
    cases b with
    | false =>
      cases hx : st.dirs s <;>
        simp [hx, updateHistory_dirs, updateDir_dirs_self]
    | true =>
      cases hx : st.dirs s <;> simp [hx, updateHistory_dirs]
  · left
    cases b with
    | false =>
      cases hx : st.dirs sid <;>
        simp [hx, updateHistory_dirs, updateDir_dirs_ne st sid s _ hs]
    | true =>
      cases hx : st.dirs sid <;> simp [hx, updateHistory_dirs]

lemma clear_context_dirs_ne (st : AgentState) (sid s : String) (b : Bool)
    (h : s ≠ sid) :
    (clear_context st sid b).dirs s = st.dirs s := by
  unfold clear_context
  cases b with
  | false =>
    cases hx : st.dirs sid <;>
      simp [hx, updateHistory_dirs, updateDir_dirs_ne st sid s _ h]
  | true =>
    cases hx : st.dirs sid <;> simp [hx, updateHistory_dirs]

lemma clear_context_chatHistory_ne (st : AgentState) (sid s : String) (b : Bool)
    (h : s ≠ sid) :
    (clear_context st sid b).chatHistory s = st.chatHistory s := by
  unfold clear_context
  cases b with
  | false =>
    cases hx : st.dirs sid <;>
      simp [hx, updateHistory_chatHistory_ne _ sid s _ h, updateDir_chatHistory]
  | true =>
    cases hx : st.dirs sid <;>
      simp [hx, updateHistory_chatHistory_ne _ sid s _ h]

lemma get_session_history_fst_dirs (st : AgentState) (sid : String) :
    (get_session_history st sid).1.dirs = st.dirs := by
  unfold get_session_history
  cases hx : st.chatHistory sid <;> rfl

lemma get_session_history_chatHistory_ne (st : AgentState) (sid s : String)
    (h : s ≠ sid) :
    (get_session_history st sid).1.chatHistory s = st.chatHistory s := by
  unfold get_session_history
  cases hx : st.chatHistory sid
  · exact updateHistory_chatHistory_ne st sid s _ h
  · rfl

lemma get_response_fst_dirs (st : AgentState) (sid q : String)
    (p : Except String String) :
    (get_response st sid q p).1.dirs = st.dirs := by
  unfold get_response
  split_ifs
  · rfl
  · cases p with
    | error e => exact get_session_history_fst_dirs st sid
    | ok ans =>
      show (updateHistory (get_session_history st sid).1 sid _).dirs = st.dirs
      rw [updateHistory_dirs]
      exact get_session_history_fst_dirs st sid

lemma process_audio_fst_dirs_ne (st : AgentState) (sid fn s : String)
    (t : Option String) (sp : String → List String) (h : s ≠ sid) :
    (process_audio st sid fn t sp).1.dirs s = st.dirs s := by
  unfold process_audio
  dsimp only
  split_ifs
  · rfl
  · rfl
  · cases t with
    | none => rfl
    | some text =>
      dsimp only
      split_ifs
      · rfl
      · rfl
      · rw [add_file_to_metadata_fst_dirs_ne _ sid fn s h,
          updateDir_dirs_ne st sid s _ h]

lemma process_audio_fst_chatHistory (st : AgentState) (sid fn : String)
    (t : Option String) (sp : String → List String) :
    (process_audio st sid fn t sp).1.chatHistory = st.chatHistory := by
  unfold process_audio
  dsimp only
  split_ifs
  · rfl
  · rfl
  · cases t with
    | none => rfl
    | some text =>
      dsimp only
      split_ifs
      · rfl
      · rfl
      · rw [add_file_to_metadata_chatHistory, updateDir_chatHistory]

lemma process_audio_success (st : AgentState) (sid fn text : String)
    (sp : String → List String)
    (hnew : fn ∉ get_uploaded_files st sid)
    (hcap : (get_uploaded_files st sid).length < 5)
    (htext : ¬ text = "")
    (hsplits : (sp text).isEmpty = false) :
    get_uploaded_files (process_audio st sid fn (some text) sp).1 sid
      = get_uploaded_files st sid ++ [fn] ∧
    (process_audio st sid fn (some text) sp).2 = ((sp text).length : Int) := by
  unfold process_audio
  dsimp only
  rw [if_neg hnew, if_neg (Nat.not_le.mpr hcap), if_neg htext, if_neg (by simp [hsplits])]
  dsimp only
  constructor
  · rw [add_file_to_metadata_files]
    rw [get_uploaded_files_update_vector]
    rw [if_neg hnew]
  · rfl

lemma process_audio_files_cases (st : AgentState) (sid fn s : String)
    (t : Option String) (sp : String → List String) :
    get_uploaded_files (process_audio st sid fn t sp).1 s = get_uploaded_files st s
    ∨ (get_uploaded_files (process_audio st sid fn t sp).1 s
         = get_uploaded_files st s ++ [fn]
       ∧ fn ∉ get_uploaded_files st s
       ∧ (get_uploaded_files st s).length < 5) := by
  by_cases hs : s = sid
  · subst hs
    by_cases h1 : fn ∈ get_uploaded_files st s
    · left
      unfold process_audio
      dsimp only
      rw [if_pos h1]
    · by_cases h2 : 5 ≤ (get_uploaded_files st s).length
      · left
        unfold process_audio
        dsimp only
        rw [if_neg h1, if_pos h2]
      · cases t with
        | none =>
          left
          unfold process_audio
          dsimp only
          rw [if_neg h1, if_neg h2]
        | some text =>
          by_cases h3 : text = ""
          · left
            unfold process_audio
            dsimp only
            rw [if_neg h1, if_neg h2]
            rw [if_pos h3]
          · by_cases h4 : (sp text).isEmpty
            · left
              unfold process_audio
              dsimp only
              rw [if_neg h1, if_neg h2]
              rw [if_neg h3, if_pos h4]
            · right
              refine ⟨?_, h1, Nat.lt_of_not_le h2⟩
              exact (process_audio_success st s fn text sp h1
                (Nat.lt_of_not_le h2) h3 (Bool.eq_false_iff.mpr h4)).1
  · left
    exact get_uploaded_files_congr st _ s
      (process_audio_fst_dirs_ne st sid fn s t sp hs)

lemma get_response_chatHistory_ne (st : AgentState) (sid s q : String)
    (p : Except String String) (h : s ≠ sid) :
    (get_response st sid q p).1.chatHistory s = st.chatHistory s := by
  unfold get_response
  split_ifs
  · rfl
  · cases p with
    | error e => exact get_session_history_chatHistory_ne st sid s h
    | ok ans =>
      show (updateHistory (get_session_history st sid).1 sid _).chatHistory s = _
      rw [updateHistory_chatHistory_ne _ sid s _ h]
      exact get_session_history_chatHistory_ne st sid s h

/-! ## Invariants preserved by every operation sequence -/

lemma applyOp_files_cases (st : AgentState) (op : AgentOp) (s : String) :
    get_uploaded_files (applyOp st op) s = get_uploaded_files st s
    ∨ (∃ fn, get_uploaded_files (applyOp st op) s = get_uploaded_files st s ++ [fn]
        ∧ fn ∉ get_uploaded_files st s
        ∧ (get_uploaded_files st s).length < 5)
    ∨ get_uploaded_files (applyOp st op) s = [] := by
  cases op with
  | upload sid fn t sp =>
    rcases process_audio_files_cases st sid fn s t sp with h | ⟨h1, h2, h3⟩
    · exact Or.inl h
    · exact Or.inr (Or.inl ⟨fn, h1, h2, h3⟩)
  | ask sid q p =>
    left
    apply get_uploaded_files_congr
    rw [applyOp, get_response_fst_dirs]
  | clear sid b =>
    rcases clear_context_dirs_cases st sid s b with h | h
    · left
      exact get_uploaded_files_congr st _ s h
    · right; right
      unfold get_uploaded_files
      rw [applyOp, h]

lemma applyOp_preserves_cap (st : AgentState) (op : AgentOp)
    (h : ∀ s, (get_uploaded_files st s).length ≤ 5) :
    ∀ s, (get_uploaded_files (applyOp st op) s).length ≤ 5 := by
  intro s
  rcases applyOp_files_cases st op s with heq | ⟨fn, heq, _, hlt⟩ | heq
  · rw [heq]; exact h s
  · rw [heq]
    rw [List.length_append, List.length_singleton]
    omega
  · rw [heq]
    simp

lemma applyOp_preserves_nodup (st : AgentState) (op : AgentOp)
    (h : ∀ s, (get_uploaded_files st s).Nodup) :
    ∀ s, (get_uploaded_files (applyOp st op) s).Nodup := by
  intro s
  rcases applyOp_files_cases st op s with heq | ⟨fn, heq, hmem, _⟩ | heq
  · rw [heq]; exact h s
  · rw [heq]
    rw [List.nodup_append]
    exact ⟨h s, List.nodup_singleton fn, by simpa using hmem⟩
  · rw [heq]
    exact List.nodup_nil

lemma runOps_cons (st : AgentState) (op : AgentOp) (ops : List AgentOp) :
    runOps st (op :: ops) = runOps (applyOp st op) ops := rfl

lemma initState_files (s : String) : get_uploaded_files initState s = [] := rfl

lemma runOps_cap_aux (ops : List AgentOp) (st : AgentState)
    (h : ∀ s, (get_uploaded_files st s).length ≤ 5) :
    ∀ s, (get_uploaded_files (runOps st ops) s).length ≤ 5 := by
  induction ops generalizing st with
  | nil => exact h
  | cons op ops ih =>
    rw [runOps_cons]
    exact ih (applyOp st op) (applyOp_preserves_cap st op h)

lemma runOps_nodup_aux (ops : List AgentOp) (st : AgentState)
    (h : ∀ s, (get_uploaded_files st s).Nodup) :
    ∀ s, (get_uploaded_files (runOps st ops) s).Nodup := by
  induction ops generalizing st with
  | nil => exact h
  | cons op ops ih =>
    rw [runOps_cons]
    exact ih (applyOp st op) (applyOp_preserves_nodup st op h)

/-! ## Claim theorems -/

/-- C1, counterexample: at the cap (5 recorded files) with a filename that
is already recorded, `process_audio` returns the duplicate sentinel `-2`,
not the limit sentinel `-1` — the duplicate check runs before the cap
check, so "returns -1 whenever the count is at or above the cap" fails. -/
theorem audio_cap_counterexample :
    5 ≤ (get_uploaded_files exStFull "s").length ∧
    (process_audio exStFull "s" "a" (some "hello") exSplit).2 = -2 ∧
    (process_audio exStFull "s" "a" (some "hello") exSplit).2 ≠ -1 := by
  decide

/-- C1, amended: when the session's recorded file count is at or above the
cap of 5 and the filename is not already recorded, `process_audio` returns
the limit sentinel `-1` with the state unchanged, for every transcription
outcome (so without transcribing or mutating anything); and after any
sequence of agent operations from the initial state, every session's
persisted file list has length at most 5. -/
theorem audio_cap_reject_and_bound (st : AgentState) (sid fn : String)
    (t : Option String) (sp : String → List String)
    (ops : List AgentOp) (s : String)
    (hnew : fn ∉ get_uploaded_files st sid)
    (hcap : 5 ≤ (get_uploaded_files st sid).length) :
    process_audio st sid fn t sp = (st, -1) ∧
    (get_uploaded_files (runOps initState ops) s).length ≤ 5 := by
  constructor
  · unfold process_audio
    dsimp only
    rw [if_neg hnew, if_pos hcap]
  · exact runOps_cap_aux ops initState
      (fun s' => by rw [initState_files]; exact Nat.zero_le 5) s

/-- Witness for C1's amended theorem at a concrete full session. -/
theorem audio_cap_reject_and_bound_witness :
    "f" ∉ get_uploaded_files exStFull "s" ∧
    5 ≤ (get_uploaded_files exStFull "s").length ∧
    (process_audio exStFull "s" "f" (some "hi") exSplit = (exStFull, -1) ∧
     (get_uploaded_files (runOps initState []) "s").length ≤ 5) :=
  ⟨by decide, by decide,
   audio_cap_reject_and_bound exStFull "s" "f" (some "hi") exSplit [] "s"
     (by decide) (by decide)⟩

/-- C2: if the filename is already recorded for the session, `process_audio`
returns the duplicate sentinel `-2`, and the entire state — in particular
the stored file list and the vector-store directory — is exactly the state
before the call, for every transcription outcome. -/
theorem audio_duplicate_reject (st : AgentState) (sid fn : String)
    (t : Option String) (sp : String → List String)
    (hdup : fn ∈ get_uploaded_files st sid) :
    process_audio st sid fn t sp = (st, -2) := by
  unfold process_audio
  dsimp only
  rw [if_pos hdup]

/-- Witness for C2 at a concrete session holding the file `"a"`. -/
theorem audio_duplicate_reject_witness :
    "a" ∈ get_uploaded_files exStOne "s" ∧
    process_audio exStOne "s" "a" (some "hello") exSplit = (exStOne, -2) :=
  ⟨by decide,
   audio_duplicate_reject exStOne "s" "a" (some "hello") exSplit (by decide)⟩

/-- C5: on an upload that passes the duplicate and cap checks, if the
transcription call raises (modelled `none`) or returns empty text,
`process_audio` returns the non-fatal sentinel `0` and the state — the
persisted file list and the vector-store directory — is exactly the state
before the call. -/
theorem audio_transcription_failure_no_mutation (st : AgentState) (sid fn : String)
    (sp : String → List String) (t : Option String)
    (hnew : fn ∉ get_uploaded_files st sid)
    (hcap : (get_uploaded_files st sid).length < 5)
    (ht : t = none ∨ t = some "") :
    process_audio st sid fn t sp = (st, 0) := by
  rcases ht with h | h <;> subst h
  · unfold process_audio
    dsimp only
    rw [if_neg hnew, if_neg (Nat.not_le.mpr hcap)]
  · unfold process_audio
    dsimp only
    rw [if_neg hnew, if_neg (Nat.not_le.mpr hcap)]
    rw [if_pos rfl]

/-- Witness for C5 at a fresh session with a failing transcription. -/
theorem audio_transcription_failure_no_mutation_witness :
    "f" ∉ get_uploaded_files initState "s" ∧
    (get_uploaded_files initState "s").length < 5 ∧
    ((none : Option String) = none ∨ (none : Option String) = some "") ∧
    process_audio initState "s" "f" none exSplit = (initState, 0) :=
  ⟨by decide, by decide, Or.inl rfl,
   audio_transcription_failure_no_mutation initState "s" "f" exSplit none
     (by decide) (by decide) (Or.inl rfl)⟩

/-- C6: on a successful upload — filename not yet recorded, below the cap,
transcription returned non-empty text, and the splitter produced at least
one chunk (`RecursiveCharacterTextSplitter` always does on non-empty
text) — `process_audio` returns the number of chunks produced by splitting
the transcript and appends the filename to the session's persisted file
list. -/
theorem audio_upload_success_appends (st : AgentState) (sid fn text : String)
    (sp : String → List String)
    (hnew : fn ∉ get_uploaded_files st sid)
    (hcap : (get_uploaded_files st sid).length < 5)
    (htext : text ≠ "")
    (hsplits : (sp text).isEmpty = false) :
    (process_audio st sid fn (some text) sp).2 = ((sp text).length : Int) ∧
    get_uploaded_files (process_audio st sid fn (some text) sp).1 sid
      = get_uploaded_files st sid ++ [fn] := by
  have h := process_audio_success st sid fn text sp hnew hcap htext hsplits
  exact ⟨h.2, h.1⟩

/-- Witness for C6 at a fresh session with a one-chunk transcript. -/
theorem audio_upload_success_appends_witness :
    "f" ∉ get_uploaded_files initState "s" ∧
    (get_uploaded_files initState "s").length < 5 ∧
    "hello" ≠ "" ∧
    (exSplit "hello").isEmpty = false ∧
    ((process_audio initState "s" "f" (some "hello") exSplit).2
        = ((exSplit "hello").length : Int) ∧
     get_uploaded_files (process_audio initState "s" "f" (some "hello") exSplit).1 "s"
        = get_uploaded_files initState "s" ++ ["f"]) :=
  ⟨by decide, by decide, by decide, by decide,
   audio_upload_success_appends initState "s" "f" "hello" exSplit
     (by decide) (by decide) (by decide) (by decide)⟩

/-- C7: `clear_context` returns for every state, session id, and `rmtree`
outcome — including a failing deletion, which is logged and swallowed
(`rmtreeFails = true`), so the function never raises — and after the call
the session id is absent from the in-memory chat-history store. -/
theorem clear_context_never_raises_drops_history (st : AgentState) (sid : String)
    (b : Bool) :
    (clear_context st sid b).chatHistory sid = none := by
  unfold clear_context
  cases b <;> cases hx : st.dirs sid <;> simp [hx, updateHistory]

/-- C3: when the session's vector-store directory is absent or empty (no
prior ingestion), `get_response` returns the fixed advisory string with the
state unchanged, for every pipeline outcome — so without invoking the
retrieval pipeline and without raising; and immediately after a
`clear_context` whose directory deletion succeeded, `get_response` returns
that same advisory string. -/
theorem audio_no_store_advisory (st : AgentState) (sid q : String)
    (p : Except String String)
    (h : dirListingNonempty (st.dirs sid) = false) :
    get_response st sid q p = (st, Except.ok advisoryMsg) ∧
    get_response (clear_context st sid false) sid q p
      = (clear_context st sid false, Except.ok advisoryMsg) := by
  constructor
  · unfold get_response
    rw [if_pos h]
  · unfold get_response
    rw [if_pos (by rw [clear_context_dirs_self]; rfl)]

/-- Witness for C3 at a fresh session with an arbitrary pipeline answer. -/
theorem audio_no_store_advisory_witness :
    dirListingNonempty (initState.dirs "s") = false ∧
    (get_response initState "s" "q" (Except.ok "ans")
        = (initState, Except.ok advisoryMsg) ∧
     get_response (clear_context initState "s" false) "s" "q" (Except.ok "ans")
        = (clear_context initState "s" false, Except.ok advisoryMsg)) :=
  ⟨rfl, audio_no_store_advisory initState "s" "q" (Except.ok "ans") rfl⟩

/-- C4, counterexample: `AudioAgent.get_response` has no exception handler —
on a session with a non-empty vector-store directory, a pipeline exception
propagates to the caller instead of being converted to a user-facing
string, refuting "no agent operation propagates an exception". -/
theorem get_response_propagates_exception :
    dirListingNonempty (exStOne.dirs "s") = true ∧
    (get_response exStOne "s" "q" (Except.error "boom")).2
      = Except.error "boom" := by
  constructor
  · decide
  · rfl

/-- C4, amended: error handling differs between the two agents.
`OCRAgent.extract_text` wraps its whole body in a handler, so an exception
while reading the image or invoking the vision model is returned as the
string `"Error extracting text: ..."`; `AudioAgent.get_response` checks its
missing-vector-store precondition but has no handler around the retrieval
pipeline, so a pipeline exception propagates unchanged to its caller (the
UI layer catches it). -/
theorem error_handling_per_agent (st : AgentState) (sid q e b : String)
    (llm : String → Except String String)
    (h : dirListingNonempty (st.dirs sid) = true) :
    (get_response st sid q (Except.error e)).2 = Except.error e ∧
    extract_text (Except.error e) llm = "Error extracting text: " ++ e ∧
    extract_text (Except.ok b) (fun _ => Except.error e)
      = "Error extracting text: " ++ e := by
  refine ⟨?_, rfl, rfl⟩
  unfold get_response
  rw [if_neg (by rw [h]; simp)]

/-- Witness for C4's amended theorem at a concrete ingested session. -/
theorem error_handling_per_agent_witness :
    dirListingNonempty (exStOne.dirs "s") = true ∧
    ((get_response exStOne "s" "q" (Except.error "e1")).2 = Except.error "e1" ∧
     extract_text (Except.error "e1") (fun _ => Except.ok "x")
        = "Error extracting text: " ++ "e1" ∧
     extract_text (Except.ok "img") (fun _ => Except.error "e1")
        = "Error extracting text: " ++ "e1") :=
  ⟨by decide,
   error_handling_per_agent exStOne "s" "q" "e1" "img" (fun _ => Except.ok "x")
     (by decide)⟩

/-- C8: sessions are isolated — each of `process_audio`, `get_response`,
and `clear_context` invoked with session `s1` leaves a distinct session
`s2`'s on-disk directory (vector store and persisted file list) and
in-memory chat-history entry unchanged. -/
theorem session_isolation (st : AgentState) (s1 s2 fn q : String)
    (t : Option String) (sp : String → List String)
    (p : Except String String) (b : Bool)
    (hne : s1 ≠ s2) :
    (process_audio st s1 fn t sp).1.dirs s2 = st.dirs s2 ∧
    (process_audio st s1 fn t sp).1.chatHistory s2 = st.chatHistory s2 ∧
    (get_response st s1 q p).1.dirs s2 = st.dirs s2 ∧
    (get_response st s1 q p).1.chatHistory s2 = st.chatHistory s2 ∧
    (clear_context st s1 b).dirs s2 = st.dirs s2 ∧
    (clear_context st s1 b).chatHistory s2 = st.chatHistory s2 := by
  have hne' : s2 ≠ s1 := Ne.symm hne
  exact ⟨process_audio_fst_dirs_ne st s1 fn s2 t sp hne',
    by rw [process_audio_fst_chatHistory],
    by rw [get_response_fst_dirs],
    get_response_chatHistory_ne st s1 s2 q p hne',
    clear_context_dirs_ne st s1 s2 b hne',
    clear_context_chatHistory_ne st s1 s2 b hne'⟩

/-- Witness for C8 at concrete distinct sessions `"s"` and `"t"`. -/
theorem session_isolation_witness :
    "s" ≠ "t" ∧
    ((process_audio exStOne "s" "f" (some "hi") exSplit).1.dirs "t"
        = exStOne.dirs "t" ∧
     (process_audio exStOne "s" "f" (some "hi") exSplit).1.chatHistory "t"
        = exStOne.chatHistory "t" ∧
     (get_response exStOne "s" "q" (Except.ok "a")).1.dirs "t"
        = exStOne.dirs "t" ∧
     (get_response exStOne "s" "q" (Except.ok "a")).1.chatHistory "t"
        = exStOne.chatHistory "t" ∧
     (clear_context exStOne "s" false).dirs "t" = exStOne.dirs "t" ∧
     (clear_context exStOne "s" false).chatHistory "t"
        = exStOne.chatHistory "t") :=
  ⟨by decide,
   session_isolation exStOne "s" "t" "f" "q" (some "hi") exSplit
     (Except.ok "a") false (by decide)⟩

/-- C9: after any sequence of agent operations from the initial state,
every session's persisted uploaded-file list has pairwise-distinct
elements — the duplicate pre-check in `process_audio` and the membership
guard in `_add_file_to_metadata` only ever append a filename that is not
yet present. -/
theorem uploaded_files_nodup (ops : List AgentOp) (sid : String) :
    (get_uploaded_files (runOps initState ops) sid).Nodup :=
  runOps_nodup_aux ops initState
    (fun s => by rw [initState_files]; exact List.nodup_nil) sid

/-- C10: when the session's `metadata.json` does not exist — the session
directory is absent (fresh session), or exists without a metadata file —
`get_uploaded_files` returns the empty list rather than failing; in
particular it does so right after `clear_context` deleted the session
directory. -/
theorem get_uploaded_files_absent_empty (st : AgentState) (sid : String)
    (h : st.dirs sid = none ∨ ∃ d, st.dirs sid = some d ∧ d.metadata = none) :
    get_uploaded_files st sid = [] ∧
    get_uploaded_files (clear_context st sid false) sid = [] := by
  constructor
  · rcases h with h | ⟨d, hd, hm⟩
    · simp [get_uploaded_files, h]
    · simp [get_uploaded_files, hd, hm]
  · simp [get_uploaded_files, clear_context_dirs_self]

/-- Witness for C10 at a fresh session. -/
theorem get_uploaded_files_absent_empty_witness :
    (initState.dirs "s" = none
      ∨ ∃ d, initState.dirs "s" = some d ∧ d.metadata = none) ∧
    (get_uploaded_files initState "s" = [] ∧
     get_uploaded_files (clear_context initState "s" false) "s" = []) :=
  ⟨Or.inl rfl, get_uploaded_files_absent_empty initState "s" (Or.inl rfl)⟩

end MAALA
